import Mathlib

/-!
Shallow embedding of the STREAM benchmark (src/stream.c) for verifying the
natural-language specification against the code.

Modelling conventions:
  * `STREAM_TYPE double` values are embedded as exact rationals `ℚ`; all
    arithmetic appearing in the program (additions and multiplications of
    small integer-valued quantities) is exact in both the program and the
    embedding, so the value-level recurrences coincide.
  * Arrays are total functions `ℕ → ℚ` (resp. `ℕ → ℕ` for the index array);
    the program only ever touches indices below the configured lengths
    `n = STREAM_ARRAY_SIZE` and `m = STREAM_INDEX_ARRAY_SIZE`.
  * The compile-time configuration `ENABLE_GATHER` / `ENABLE_SCATTER` /
    `ENABLE_INDIRECT_DOT_PRODUCT` is embedded as three booleans.
  * The wall-clock samples returned by `mysecond` are inputs of the
    embedding (functions `ℕ → ℚ` of the sample index), since the clock is
    outside the program.
-/

/-- The mutable global state of stream.c: the workload buffers `a`, `b`, `c`,
the gather destination `d`, the scatter destination `e`, the index buffer
`i` (called `idx` here) and the indirect dot product accumulator `x`. -/
structure StreamState where
  a : ℕ → ℚ
  b : ℕ → ℚ
  c : ℕ → ℚ
  d : ℕ → ℚ
  e : ℕ → ℚ
  idx : ℕ → ℕ
  x : ℚ

/-- Copy kernel, stream.c lines 471-474: `c[j] = a[j]` for `j < n`. -/
def copyKernel (n : ℕ) (s : StreamState) : StreamState :=
  { s with c := fun j => if j < n then s.a j else s.c j }

/-- Scale kernel, stream.c lines 481-484: `b[j] = scalar*c[j]` for `j < n`. -/
def scaleKernel (n : ℕ) (scalar : ℚ) (s : StreamState) : StreamState :=
  { s with b := fun j => if j < n then scalar * s.c j else s.b j }

/-- Add kernel, stream.c lines 491-494: `c[j] = a[j]+b[j]` for `j < n`. -/
def addKernel (n : ℕ) (s : StreamState) : StreamState :=
  { s with c := fun j => if j < n then s.a j + s.b j else s.c j }

/-- Triad kernel, stream.c lines 501-504: `a[j] = b[j]+scalar*c[j]` for `j < n`. -/
def triadKernel (n : ℕ) (scalar : ℚ) (s : StreamState) : StreamState :=
  { s with a := fun j => if j < n then s.b j + scalar * s.c j else s.a j }

/-- Gather kernel, stream.c lines 512-514: `d[j] = a[i[j]]` for `j < m`. -/
def gatherKernel (m : ℕ) (s : StreamState) : StreamState :=
  { s with d := fun j => if j < m then s.a (s.idx j) else s.d j }

/-- Scatter kernel, stream.c lines 520-522: `e[i[j]] = d[j]` for
`j = 0, 1, ..., m-1` in order (the loop only writes `e`, so the reads of
`i` and `d` during the loop see the pre-loop buffers). -/
def scatterKernel (m : ℕ) (s : StreamState) : StreamState :=
  { s with e := ((List.range m).foldl
      (fun ecur j => Function.update ecur (s.idx j) (s.d j)) s.e) }

/-- Indirect dot product kernel, stream.c lines 527-531:
`x = 0.0; for j: x += d[j] * b[i[j]]` (single-threaded accumulation order). -/
def indirectDotKernel (m : ℕ) (s : StreamState) : StreamState :=
  { s with x := (List.range m).foldl (fun acc j => acc + s.d j * s.b (s.idx j)) 0 }

/-- The four mandatory kernels of one trial in their fixed source order
Copy, Scale, Add, Triad (stream.c lines 467-505). -/
def mandatoryFour (n : ℕ) (scalar : ℚ) (s : StreamState) : StreamState :=
  triadKernel n scalar (addKernel n (scaleKernel n scalar (copyKernel n s)))

/-- One iteration of the main timing loop (stream.c lines 465-535): the four
mandatory kernels followed, when enabled, by Gather, Scatter and the
indirect dot product, in that order. -/
def streamTrial (n m : ℕ) (eg es ed : Bool) (scalar : ℚ) (s : StreamState) :
    StreamState :=
  let s4 := mandatoryFour n scalar s
  let s5 := if eg then gatherKernel m s4 else s4
  let s6 := if es then scatterKernel m s5 else s5
  if ed then indirectDotKernel m s6 else s6

/-- Index buffer initialisation, stream.c lines 400-403: `i[j] = j % n` for
`j < m` (static storage is zero elsewhere). -/
def initIdx (n m : ℕ) : ℕ → ℕ :=
  fun j => if j < m then j % n else 0

/-- Buffer initialisation, stream.c lines 388-430: `a[j]=1, b[j]=2, c[j]=0`
for `j < n`, `d[j]=1` for `j < m`, `e[j]=0`, `i[j] = j % n`, and static
zero-initialised storage elsewhere. -/
def initState (n m : ℕ) : StreamState where
  a := fun j => if j < n then 1 else 0
  b := fun j => if j < n then 2 else 0
  c := fun _ => 0
  d := fun j => if j < m then 1 else 0
  e := fun _ => 0
  idx := initIdx n m
  x := 0

/-- The pre-loop warm-up doubling of `a`, stream.c lines 444-446:
`a[j] = 2.0E0 * a[j]` for `j < n`. -/
def warmupA (n : ℕ) (s : StreamState) : StreamState :=
  { s with a := fun j => if j < n then 2 * s.a j else s.a j }

/-- The whole measured computation of `main`: initialisation, warm-up
doubling of `a`, then `ntimes` trials with `scalar = 3.0`
(stream.c line 464). -/
def runStream (n m : ℕ) (eg es ed : Bool) (ntimes : ℕ) : StreamState :=
  (streamTrial n m eg es ed 3)^[ntimes] (warmupA n (initState n m))

/-- The scalar expectation variables of `checkSTREAMresults`
(stream.c lines 632-643). -/
structure ExpVals where
  aj : ℚ
  bj : ℚ
  cj : ℚ
  dj : ℚ
  ej : ℚ

/-- One iteration of the validator's scalar simulation loop, stream.c lines
656-672: `cj = aj; bj = scalar*cj; cj = aj+bj; aj = bj+scalar*cj`, then
`dj = aj` when gather is enabled, and `ej = aj` (gather enabled) or
`ej = 0.0` (gather disabled) when scatter is enabled. -/
def validatorTrial (eg es : Bool) (scalar : ℚ) (v : ExpVals) : ExpVals :=
  let cj1 := v.aj
  let bj1 := scalar * cj1
  let cj2 := v.aj + bj1
  let aj1 := bj1 + scalar * cj2
  { aj := aj1
    bj := bj1
    cj := cj2
    dj := if eg then aj1 else v.dj
    ej := if es then (if eg then aj1 else 0) else v.ej }

/-- The validator's seed values, stream.c lines 649-653: `aj=1, bj=2, cj=0`
followed by the reproduced warm-up doubling `aj = 2.0E0*aj`.  The local C
variables `dj` and `ej` are not initialised before the loop; they are
modelled as 0 and only consulted after at least one iteration. -/
def validatorInit : ExpVals :=
  { aj := 2 * 1, bj := 2, cj := 0, dj := 0, ej := 0 }

/-- The validator's scalar simulation over `ntimes` trials with
`scalar = 3.0` (stream.c line 655). -/
def validatorRun (eg es : Bool) (ntimes : ℕ) : ExpVals :=
  (validatorTrial eg es 3)^[ntimes] validatorInit

/-- FLT_MAX, the seed of the `mintime` accumulators (stream.c line 232),
as the exact rational value of the largest finite single-precision float. -/
def fltMax : ℚ := (2 ^ 24 - 1) * 2 ^ 104

/-- The summary loop's average for one kernel, stream.c lines 539-551:
sum `times[j][k]` over trials `k = 1, ..., ntimes-1` (trial 0 is skipped),
then divide by `ntimes - 1`. -/
def avgtimeOf (ntimes : ℕ) (t : ℕ → ℚ) : ℚ :=
  ((List.range (ntimes - 1)).foldl (fun acc k => acc + t (k + 1)) 0) /
    ((ntimes - 1 : ℕ) : ℚ)

/-- The summary loop's minimum for one kernel, stream.c lines 539-547:
fold `MIN` over trials `1, ..., ntimes-1` starting from `FLT_MAX`. -/
def mintimeOf (ntimes : ℕ) (t : ℕ → ℚ) : ℚ :=
  (List.range (ntimes - 1)).foldl (fun acc k => min acc (t (k + 1))) fltMax

/-- The summary loop's maximum for one kernel, stream.c lines 539-547:
fold `MAX` over trials `1, ..., ntimes-1` starting from `0`. -/
def maxtimeOf (ntimes : ℕ) (t : ℕ → ℚ) : ℚ :=
  (List.range (ntimes - 1)).foldl (fun acc k => max acc (t (k + 1))) 0

/-- The C cast `(int)` applied to a rational: truncation toward zero. -/
def truncToInt (q : ℚ) : ℤ :=
  if 0 ≤ q then ⌊q⌋ else ⌈q⌉

/-- The clock-granularity estimator `checktick` (stream.c lines 570-598) as
a function of the 20 collected tick timestamps `ts 0, ..., ts 19` (the
spin-wait sampling itself is outside the embedding): starting from
`minDelta = 1000000`, fold `minDelta = MIN(minDelta, MAX(Delta, 0))` over
`Delta = (int)(1.0E6 * (ts[i] - ts[i-1]))` for `i = 1, ..., 19`. -/
def checktick (ts : ℕ → ℚ) : ℤ :=
  (List.range 19).foldl
    (fun minDelta i =>
      min minDelta (max (truncToInt (1000000 * (ts (i + 1) - ts i))) 0))
    1000000

/-- The Fisher-Yates style shuffle of the index buffer under
`PERMUTE_INDEX_ARRAY` (stream.c lines 417-422), as a function of the
sequence `r` of `rand()` outputs: for `j = 0, ..., m-3`, swap entry `j`
with entry `k = j + r j % (m - j)`. -/
def shuffleIdx (m : ℕ) (r : ℕ → ℕ) (idx0 : ℕ → ℕ) : ℕ → ℕ :=
  (List.range (m - 2)).foldl
    (fun cur j =>
      Function.update (Function.update cur j (cur (j + r j % (m - j))))
        (j + r j % (m - j)) (cur j))
    idx0

/-- The validator's accumulated absolute error for buffer `e`, stream.c
lines 696-699: sum of `abs(e[i[j]] - ej)` over `j < m`. -/
def eSumErrOf (m : ℕ) (e : ℕ → ℚ) (idx : ℕ → ℕ) (ej : ℚ) : ℚ :=
  (List.range m).foldl (fun acc j => acc + |e (idx j) - ej|) 0

/-- The validator's `eAvgErr`, stream.c line 700: the accumulated error for
buffer `e` divided by `STREAM_ARRAY_SIZE` (that is, by `n`, the length of
the primary buffers, not by the number `m` of summed terms). -/
def eAvgErrOf (n m : ℕ) (e : ℕ → ℚ) (idx : ℕ → ℕ) (ej : ℚ) : ℚ :=
  eSumErrOf m e idx ej / (n : ℚ)

/-- The validation tolerance for 8-byte elements, stream.c line 713. -/
def epsilon64 : ℚ := 1 / 10 ^ 13

/-- The validator's failure condition for buffer `e`, stream.c line 799:
`abs(eAvgErr/ej) > epsilon`. -/
def eCheckFails (n m : ℕ) (e : ℕ → ℚ) (idx : ℕ → ℕ) (ej : ℚ) : Prop :=
  |eAvgErrOf n m e idx ej / ej| > epsilon64

/-- Modelled from the spec: the comparison quantity the specification
prescribes for buffer `e` is the mean absolute difference over the
checked elements, i.e. the accumulated error divided by the number `m` of
checked elements. -/
def eMeanAbsErrSpec (m : ℕ) (e : ℕ → ℚ) (idx : ℕ → ℕ) (ej : ℚ) : ℚ :=
  eSumErrOf m e idx ej / (m : ℚ)

/-! ## Helper lemmas -/

lemma streamTrial_a (n m : ℕ) (eg es ed : Bool) (sc : ℚ) (s : StreamState) :
    (streamTrial n m eg es ed sc s).a = (mandatoryFour n sc s).a := by
  cases eg <;> cases es <;> cases ed <;> rfl

lemma streamTrial_b (n m : ℕ) (eg es ed : Bool) (sc : ℚ) (s : StreamState) :
    (streamTrial n m eg es ed sc s).b = (mandatoryFour n sc s).b := by
  cases eg <;> cases es <;> cases ed <;> rfl

lemma streamTrial_c (n m : ℕ) (eg es ed : Bool) (sc : ℚ) (s : StreamState) :
    (streamTrial n m eg es ed sc s).c = (mandatoryFour n sc s).c := by
  cases eg <;> cases es <;> cases ed <;> rfl

lemma streamTrial_idx (n m : ℕ) (eg es ed : Bool) (sc : ℚ) (s : StreamState) :
    (streamTrial n m eg es ed sc s).idx = s.idx := by
  cases eg <;> cases es <;> cases ed <;> rfl

lemma streamTrial_d_gather (n m : ℕ) (es ed : Bool) (sc : ℚ) (s : StreamState) :
    (streamTrial n m true es ed sc s).d = (gatherKernel m (mandatoryFour n sc s)).d := by
  cases es <;> cases ed <;> rfl

lemma streamTrial_e_gather_scatter (n m : ℕ) (ed : Bool) (sc : ℚ) (s : StreamState) :
    (streamTrial n m true true ed sc s).e
      = (scatterKernel m (gatherKernel m (mandatoryFour n sc s))).e := by
  cases ed <;> rfl

lemma mandatoryFour_a (n : ℕ) (sc : ℚ) (s : StreamState) (j : ℕ) (hj : j < n) :
    (mandatoryFour n sc s).a j = sc * s.a j + sc * (s.a j + sc * s.a j) := by
  simp [mandatoryFour, triadKernel, addKernel, scaleKernel, copyKernel, hj]

lemma mandatoryFour_b (n : ℕ) (sc : ℚ) (s : StreamState) (j : ℕ) (hj : j < n) :
    (mandatoryFour n sc s).b j = sc * s.a j := by
  simp [mandatoryFour, triadKernel, addKernel, scaleKernel, copyKernel, hj]

lemma mandatoryFour_c (n : ℕ) (sc : ℚ) (s : StreamState) (j : ℕ) (hj : j < n) :
    (mandatoryFour n sc s).c j = s.a j + sc * s.a j := by
  simp [mandatoryFour, triadKernel, addKernel, scaleKernel, copyKernel, hj]

lemma validatorTrial_fields (eg es : Bool) (sc : ℚ) (v : ExpVals) :
    (validatorTrial eg es sc v).aj = sc * v.aj + sc * (v.aj + sc * v.aj) ∧
    (validatorTrial eg es sc v).bj = sc * v.aj ∧
    (validatorTrial eg es sc v).cj = v.aj + sc * v.aj := by
  refine ⟨?_, rfl, rfl⟩
  simp [validatorTrial]

lemma runStream_succ (n m : ℕ) (eg es ed : Bool) (k : ℕ) :
    runStream n m eg es ed (k + 1)
      = streamTrial n m eg es ed 3 (runStream n m eg es ed k) :=
  Function.iterate_succ_apply' _ _ _

lemma validatorRun_succ (eg es : Bool) (k : ℕ) :
    validatorRun eg es (k + 1) = validatorTrial eg es 3 (validatorRun eg es k) :=
  Function.iterate_succ_apply' _ _ _

lemma abc_invariant_step (n m : ℕ) (eg es ed : Bool) (s : StreamState) (v : ExpVals)
    (ha : ∀ j, j < n → s.a j = v.aj) :
    (∀ j, j < n → (streamTrial n m eg es ed 3 s).a j = (validatorTrial eg es 3 v).aj) ∧
    (∀ j, j < n → (streamTrial n m eg es ed 3 s).b j = (validatorTrial eg es 3 v).bj) ∧
    (∀ j, j < n → (streamTrial n m eg es ed 3 s).c j = (validatorTrial eg es 3 v).cj) := by
  obtain ⟨hva, hvb, hvc⟩ := validatorTrial_fields eg es 3 v
  refine ⟨?_, ?_, ?_⟩ <;> intro j hj
  · rw [streamTrial_a, mandatoryFour_a n 3 s j hj, ha j hj, hva]
  · rw [streamTrial_b, mandatoryFour_b n 3 s j hj, ha j hj, hvb]
  · rw [streamTrial_c, mandatoryFour_c n 3 s j hj, ha j hj, hvc]

lemma abc_invariant (n m : ℕ) (eg es ed : Bool) (ntimes : ℕ) :
    (∀ j, j < n → (runStream n m eg es ed ntimes).a j = (validatorRun eg es ntimes).aj) ∧
    (∀ j, j < n → (runStream n m eg es ed ntimes).b j = (validatorRun eg es ntimes).bj) ∧
    (∀ j, j < n → (runStream n m eg es ed ntimes).c j = (validatorRun eg es ntimes).cj) := by
  induction ntimes with
  | zero =>
    refine ⟨?_, ?_, ?_⟩ <;> intro j hj <;>
      simp [runStream, validatorRun, warmupA, initState, validatorInit, hj]
  | succ k ih =>
    obtain ⟨ha, _, _⟩ := ih
    rw [runStream_succ, validatorRun_succ]
    exact abc_invariant_step n m eg es ed _ _ ha

lemma scatter_fold_keeps (idx : ℕ → ℕ) (d g : ℕ → ℚ) :
    ∀ (l : List ℕ) (e0 : ℕ → ℚ) (p : ℕ), (∀ j ∈ l, d j = g (idx j)) → e0 p = g p →
      (l.foldl (fun ec j => Function.update ec (idx j) (d j)) e0) p = g p := by
  intro l
  induction l with
  | nil => intro e0 p _ hp; exact hp
  | cons j0 l' ih =>
    intro e0 p hd hp
    simp only [List.foldl_cons]
    apply ih _ _ (fun j hj => hd j (List.mem_cons_of_mem _ hj))
    by_cases hpj : p = idx j0
    · rw [hpj, Function.update_same, hd j0 (List.mem_cons_self _ _)]
    · rw [Function.update_noteq hpj]; exact hp

lemma scatter_fold_writes (idx : ℕ → ℕ) (d g : ℕ → ℚ) :
    ∀ (l : List ℕ) (e0 : ℕ → ℚ) (j : ℕ), j ∈ l → (∀ j' ∈ l, d j' = g (idx j')) →
      (l.foldl (fun ec j' => Function.update ec (idx j') (d j')) e0) (idx j) = g (idx j) := by
  intro l
  induction l with
  | nil => intro e0 j hj _; cases hj
  | cons j0 l' ih =>
    intro e0 j hj hd
    simp only [List.foldl_cons]
    rcases List.mem_cons.mp hj with h | h
    · subst h
      apply scatter_fold_keeps idx d g l' _ _ (fun j' hj' => hd j' (List.mem_cons_of_mem _ hj'))
      rw [Function.update_same]
      exact hd j (List.mem_cons_self _ _)
    · exact ih _ j h (fun j' hj' => hd j' (List.mem_cons_of_mem _ hj'))

lemma shuffle_fold_preserves_bound (n m : ℕ) (r : ℕ → ℕ) :
    ∀ (l : List ℕ) (idx0 : ℕ → ℕ), (∀ p, idx0 p < n) →
      ∀ p, (l.foldl
        (fun cur j =>
          Function.update (Function.update cur j (cur (j + r j % (m - j))))
            (j + r j % (m - j)) (cur j)) idx0) p < n := by
  intro l
  induction l with
  | nil => intro idx0 h p; exact h p
  | cons j0 l' ih =>
    intro idx0 h p
    simp only [List.foldl_cons]
    apply ih
    intro q
    by_cases h1 : q = j0 + r j0 % (m - j0)
    · rw [h1, Function.update_same]; exact h j0
    · rw [Function.update_noteq h1]
      by_cases h2 : q = j0
      · rw [h2, Function.update_same]; exact h _
      · rw [Function.update_noteq h2]; exact h q

lemma checktick_fold_bounds (ts : ℕ → ℚ) :
    ∀ (l : List ℕ) (acc : ℤ), 0 ≤ acc →
      0 ≤ l.foldl
          (fun md i => min md (max (truncToInt (1000000 * (ts (i + 1) - ts i))) 0)) acc ∧
      l.foldl
          (fun md i => min md (max (truncToInt (1000000 * (ts (i + 1) - ts i))) 0)) acc
        ≤ acc := by
  intro l
  induction l with
  | nil => intro acc h; exact ⟨h, le_refl acc⟩
  | cons i0 l' ih =>
    intro acc h
    simp only [List.foldl_cons]
    have hstep : (0:ℤ) ≤ min acc (max (truncToInt (1000000 * (ts (i0 + 1) - ts i0))) 0) :=
      le_min h (le_max_right _ _)
    obtain ⟨h1, h2⟩ := ih _ hstep
    exact ⟨h1, le_trans h2 (min_le_left _ _)⟩

lemma foldl_add_agree (t t' : ℕ → ℚ) (h : ∀ k, t (k + 1) = t' (k + 1)) :
    ∀ (l : List ℕ) (i : ℚ),
      l.foldl (fun acc k => acc + t (k + 1)) i = l.foldl (fun acc k => acc + t' (k + 1)) i := by
  intro l
  induction l with
  | nil => intro i; rfl
  | cons k0 l' ih => intro i; simp only [List.foldl_cons, h k0, ih]

lemma foldl_min_agree (t t' : ℕ → ℚ) (h : ∀ k, t (k + 1) = t' (k + 1)) :
    ∀ (l : List ℕ) (i : ℚ),
      l.foldl (fun acc k => min acc (t (k + 1))) i
        = l.foldl (fun acc k => min acc (t' (k + 1))) i := by
  intro l
  induction l with
  | nil => intro i; rfl
  | cons k0 l' ih => intro i; simp only [List.foldl_cons, h k0, ih]

lemma foldl_max_agree (t t' : ℕ → ℚ) (h : ∀ k, t (k + 1) = t' (k + 1)) :
    ∀ (l : List ℕ) (i : ℚ),
      l.foldl (fun acc k => max acc (t (k + 1))) i
        = l.foldl (fun acc k => max acc (t' (k + 1))) i := by
  intro l
  induction l with
  | nil => intro i; rfl
  | cons k0 l' ih => intro i; simp only [List.foldl_cons, h k0, ih]

lemma min_fold_bounds (t : ℕ → ℚ) :
    ∀ (l : List ℕ) (i : ℚ),
      (l.foldl (fun acc k => min acc (t (k + 1))) i ≤ i) ∧
      (∀ k ∈ l, l.foldl (fun acc k => min acc (t (k + 1))) i ≤ t (k + 1)) := by
  intro l
  induction l with
  | nil => intro i; exact ⟨le_refl i, by simp⟩
  | cons k0 l' ih =>
    intro i
    simp only [List.foldl_cons]
    constructor
    · exact le_trans (ih (min i (t (k0 + 1)))).1 (min_le_left _ _)
    · intro k hk
      rcases List.mem_cons.mp hk with h | h
      · subst h; exact le_trans (ih _).1 (min_le_right _ _)
      · exact (ih _).2 k h

lemma max_fold_bounds (t : ℕ → ℚ) :
    ∀ (l : List ℕ) (i : ℚ),
      (i ≤ l.foldl (fun acc k => max acc (t (k + 1))) i) ∧
      (∀ k ∈ l, t (k + 1) ≤ l.foldl (fun acc k => max acc (t (k + 1))) i) := by
  intro l
  induction l with
  | nil => intro i; exact ⟨le_refl i, by simp⟩
  | cons k0 l' ih =>
    intro i
    simp only [List.foldl_cons]
    constructor
    · exact le_trans (le_max_left _ _) (ih (max i (t (k0 + 1)))).1
    · intro k hk
      rcases List.mem_cons.mp hk with h | h
      · subst h; exact le_trans (le_max_right _ _) (ih _).1
      · exact (ih _).2 k h

lemma sum_fold_lower (t : ℕ → ℚ) (mu : ℚ) :
    ∀ (l : List ℕ) (i : ℚ), (∀ k ∈ l, mu ≤ t (k + 1)) →
      i + (l.length : ℚ) * mu ≤ l.foldl (fun acc k => acc + t (k + 1)) i := by
  intro l
  induction l with
  | nil => intro i _; simp
  | cons k0 l' ih =>
    intro i h
    simp only [List.foldl_cons, List.length_cons]
    have h0 : mu ≤ t (k0 + 1) := h k0 (List.mem_cons_self _ _)
    have h' := ih (i + t (k0 + 1)) (fun k hk => h k (List.mem_cons_of_mem _ hk))
    have expand : i + ((l'.length : ℚ) + 1) * mu = (i + mu) + (l'.length : ℚ) * mu := by
      ring
    push_cast
    rw [expand]
    linarith [h']

lemma sum_fold_upper (t : ℕ → ℚ) (mu : ℚ) :
    ∀ (l : List ℕ) (i : ℚ), (∀ k ∈ l, t (k + 1) ≤ mu) →
      l.foldl (fun acc k => acc + t (k + 1)) i ≤ i + (l.length : ℚ) * mu := by
  intro l
  induction l with
  | nil => intro i _; simp
  | cons k0 l' ih =>
    intro i h
    simp only [List.foldl_cons, List.length_cons]
    have h0 : t (k0 + 1) ≤ mu := h k0 (List.mem_cons_self _ _)
    have h' := ih (i + t (k0 + 1)) (fun k hk => h k (List.mem_cons_of_mem _ hk))
    have expand : i + ((l'.length : ℚ) + 1) * mu = (i + mu) + (l'.length : ℚ) * mu := by
      ring
    push_cast
    rw [expand]
    linarith [h']

/-! ## Claim theorems -/

/-- C1: for every trial count, every array length, every optional-kernel
configuration and every index `j < n`, after the deterministic seeding
(`A=1, B=2, C=0`), the pre-loop doubling of `A` and `ntimes` trials of the
single-threaded trial loop, the element `A[j]`, `B[j]`, `C[j]` equals the
validator's scalar `aj`, `bj`, `cj` obtained by applying the recurrence
`cj=aj; bj=3*cj; cj=aj+bj; aj=bj+3*cj` exactly `ntimes` times from
`aj=2, bj=2, cj=0`: the validator's scalar simulation is an exact
refinement of the per-element trajectory of the trial loop. -/
theorem validator_sim_refines_trial_loop (n m ntimes : ℕ) (eg es ed : Bool)
    (j : ℕ) (hj : j < n) :
    (runStream n m eg es ed ntimes).a j = (validatorRun eg es ntimes).aj ∧
    (runStream n m eg es ed ntimes).b j = (validatorRun eg es ntimes).bj ∧
    (runStream n m eg es ed ntimes).c j = (validatorRun eg es ntimes).cj := by
  obtain ⟨ha, hb, hc⟩ := abc_invariant n m eg es ed ntimes
  exact ⟨ha j hj, hb j hj, hc j hj⟩

/-- Witness for C1 at the concrete input `n = 1`, `m = 1`, `ntimes = 2`,
all optional kernels disabled, `j = 0`. -/
theorem validator_sim_refines_trial_loop_witness :
    0 < 1 ∧
    ((runStream 1 1 false false false 2).a 0 = (validatorRun false false 2).aj ∧
     (runStream 1 1 false false false 2).b 0 = (validatorRun false false 2).bj ∧
     (runStream 1 1 false false false 2).c 0 = (validatorRun false false 2).cj) :=
  ⟨by decide, validator_sim_refines_trial_loop 1 1 2 false false false 0 (by decide)⟩

/-- C2: in every trial, the kernels run in the fixed order Copy, Scale,
Add, Triad, then (when enabled) Gather, Scatter, Indirect dot product; the
scalar is `3.0` in every trial (`runStream` iterates the trial at scalar 3);
and each mandatory kernel performs exactly its elementwise update:
`C[j]=A[j]`, `B[j]=3*C[j]`, `C[j]=A[j]+B[j]`, `A[j]=B[j]+3*C[j]` for every
`j < n`, on every state. -/
theorem kernels_fixed_order_and_updates (n m : ℕ) (eg es ed : Bool) (ntimes : ℕ)
    (s : StreamState) (j : ℕ) (hj : j < n) :
    runStream n m eg es ed ntimes
        = (streamTrial n m eg es ed 3)^[ntimes] (warmupA n (initState n m)) ∧
    streamTrial n m eg es ed 3 s =
      (fun u => if ed then indirectDotKernel m u else u)
        ((fun u => if es then scatterKernel m u else u)
          ((fun u => if eg then gatherKernel m u else u)
            (triadKernel n 3 (addKernel n (scaleKernel n 3 (copyKernel n s)))))) ∧
    (copyKernel n s).c j = s.a j ∧
    (scaleKernel n 3 s).b j = 3 * s.c j ∧
    (addKernel n s).c j = s.a j + s.b j ∧
    (triadKernel n 3 s).a j = s.b j + 3 * s.c j := by
  refine ⟨rfl, rfl, ?_, ?_, ?_, ?_⟩ <;>
    simp [copyKernel, scaleKernel, addKernel, triadKernel, hj]

/-- Witness for C2 at the concrete input `n = m = 1`, all optional kernels
enabled, `ntimes = 2`, the initial state, `j = 0`. -/
theorem kernels_fixed_order_and_updates_witness :
    0 < 1 ∧
    (runStream 1 1 true true true 2
        = (streamTrial 1 1 true true true 3)^[2] (warmupA 1 (initState 1 1)) ∧
     streamTrial 1 1 true true true 3 (initState 1 1) =
       (fun u => if true then indirectDotKernel 1 u else u)
         ((fun u => if true then scatterKernel 1 u else u)
           ((fun u => if true then gatherKernel 1 u else u)
             (triadKernel 1 3 (addKernel 1 (scaleKernel 1 3 (copyKernel 1 (initState 1 1))))))) ∧
     (copyKernel 1 (initState 1 1)).c 0 = (initState 1 1).a 0 ∧
     (scaleKernel 1 3 (initState 1 1)).b 0 = 3 * (initState 1 1).c 0 ∧
     (addKernel 1 (initState 1 1)).c 0 = (initState 1 1).a 0 + (initState 1 1).b 0 ∧
     (triadKernel 1 3 (initState 1 1)).a 0
        = (initState 1 1).b 0 + 3 * (initState 1 1).c 0) :=
  ⟨by decide, kernels_fixed_order_and_updates 1 1 true true true 2 (initState 1 1) 0 (by decide)⟩

/-- C6: `checktick`, which collects 20 tick timestamps and returns the
minimum over consecutive differences after clamping each negative
difference to zero, yields for every sequence of clock samples a result
that is non-negative and never exceeds the initial bound 1000000. -/
theorem checktick_nonneg_and_bounded (ts : ℕ → ℚ) :
    0 ≤ checktick ts ∧ checktick ts ≤ 1000000 :=
  checktick_fold_bounds ts (List.range 19) 1000000 (by norm_num)

/-- C7: in one trial with gather and scatter enabled (the same index array
used by both), after Gather then Scatter every `j < m` satisfies
`E[Idx[j]] = D[j] = A[Idx[j]]` where `A` is taken at the time of the gather
(after the Triad of the same trial); the state `s`, and hence the index
array, is arbitrary, so duplicate indices are covered. -/
theorem gather_scatter_roundtrip (n m : ℕ) (ed : Bool) (s : StreamState)
    (j : ℕ) (hj : j < m) :
    (streamTrial n m true true ed 3 s).e ((streamTrial n m true true ed 3 s).idx j)
        = (streamTrial n m true true ed 3 s).d j ∧
    (streamTrial n m true true ed 3 s).d j
        = (mandatoryFour n 3 s).a ((mandatoryFour n 3 s).idx j) := by
  have hd : (streamTrial n m true true ed 3 s).d j
      = (mandatoryFour n 3 s).a ((mandatoryFour n 3 s).idx j) := by
    rw [streamTrial_d_gather]
    simp [gatherKernel, hj]
  refine ⟨?_, hd⟩
  rw [streamTrial_e_gather_scatter, streamTrial_idx, hd]
  have hmem : j ∈ List.range m := List.mem_range.mpr hj
  have hvals : ∀ j' ∈ List.range m,
      (gatherKernel m (mandatoryFour n 3 s)).d j'
        = (mandatoryFour n 3 s).a ((gatherKernel m (mandatoryFour n 3 s)).idx j') := by
    intro j' hj'
    simp [gatherKernel, List.mem_range.mp hj']
  have := scatter_fold_writes (gatherKernel m (mandatoryFour n 3 s)).idx
      (gatherKernel m (mandatoryFour n 3 s)).d
      (mandatoryFour n 3 s).a
      (List.range m) (gatherKernel m (mandatoryFour n 3 s)).e j hmem hvals
  simpa [scatterKernel, gatherKernel, mandatoryFour] using this

/-- Witness for C7 at the concrete input `n = m = 1`, the initial state,
`j = 0`. -/
theorem gather_scatter_roundtrip_witness :
    0 < 1 ∧
    ((streamTrial 1 1 true true false 3 (initState 1 1)).e
         ((streamTrial 1 1 true true false 3 (initState 1 1)).idx 0)
        = (streamTrial 1 1 true true false 3 (initState 1 1)).d 0 ∧
     (streamTrial 1 1 true true false 3 (initState 1 1)).d 0
        = (mandatoryFour 1 3 (initState 1 1)).a
            ((mandatoryFour 1 3 (initState 1 1)).idx 0)) :=
  ⟨by decide, gather_scatter_roundtrip 1 1 false (initState 1 1) 0 (by decide)⟩

/-- C9: with a positive primary array length `n`, every entry of the index
buffer lies in `[0, n)`, both directly after the `idx[j] = j mod n`
initialisation and after the random Fisher-Yates style permutation, which
only swaps existing entries. -/
theorem index_buffer_entries_in_range (n m p : ℕ) (r : ℕ → ℕ) (hn : 0 < n) :
    initIdx n m p < n ∧ shuffleIdx m r (initIdx n m) p < n := by
  have hinit : ∀ q, initIdx n m q < n := by
    intro q
    unfold initIdx
    split
    · exact Nat.mod_lt _ hn
    · exact hn
  exact ⟨hinit p, shuffle_fold_preserves_bound n m r (List.range (m - 2)) _ hinit p⟩

/-- Witness for C9 at the concrete input `n = 1`, `m = 3`, `p = 0`,
constant random sequence 0. -/
theorem index_buffer_entries_in_range_witness :
    0 < 1 ∧
    (initIdx 1 3 0 < 1 ∧ shuffleIdx 3 (fun _ => 0) (initIdx 1 3) 0 < 1) :=
  ⟨by decide, index_buffer_entries_in_range 1 3 0 (fun _ => 0) (by decide)⟩

/-- C10: each mandatory kernel mutates only its designated output buffer:
Copy writes only `C`, Scale only `B`, Add only `C`, Triad only `A`; all
other buffers are unchanged, and no kernel (including the optional ones)
ever modifies the index buffer. -/
theorem kernels_frame_conditions (n m : ℕ) (scalar : ℚ) (s : StreamState) :
    ((copyKernel n s).a = s.a ∧ (copyKernel n s).b = s.b ∧ (copyKernel n s).d = s.d ∧
      (copyKernel n s).e = s.e ∧ (copyKernel n s).idx = s.idx) ∧
    ((scaleKernel n scalar s).a = s.a ∧ (scaleKernel n scalar s).c = s.c ∧
      (scaleKernel n scalar s).d = s.d ∧ (scaleKernel n scalar s).e = s.e ∧
      (scaleKernel n scalar s).idx = s.idx) ∧
    ((addKernel n s).a = s.a ∧ (addKernel n s).b = s.b ∧ (addKernel n s).d = s.d ∧
      (addKernel n s).e = s.e ∧ (addKernel n s).idx = s.idx) ∧
    ((triadKernel n scalar s).b = s.b ∧ (triadKernel n scalar s).c = s.c ∧
      (triadKernel n scalar s).d = s.d ∧ (triadKernel n scalar s).e = s.e ∧
      (triadKernel n scalar s).idx = s.idx) ∧
    (gatherKernel m s).idx = s.idx ∧ (scatterKernel m s).idx = s.idx ∧
    (indirectDotKernel m s).idx = s.idx :=
  ⟨⟨rfl, rfl, rfl, rfl, rfl⟩, ⟨rfl, rfl, rfl, rfl, rfl⟩, ⟨rfl, rfl, rfl, rfl, rfl⟩,
    ⟨rfl, rfl, rfl, rfl, rfl⟩, rfl, rfl, rfl⟩

/-- C4: the Statistics Aggregator computes average, minimum and maximum
only from the times of trials `1, ..., ntimes-1` (trial 0 is always
discarded): any two time tables agreeing on trials `k ≥ 1` summarise
identically; and with `ntimes = 2` the reported average, minimum and
maximum all equal the single retained sample `t 1` (given that the sample
is a non-negative time not exceeding the `FLT_MAX` seed of the minimum
accumulator). -/
theorem stats_discard_warmup_trial (t : ℕ → ℚ) (h0 : 0 ≤ t 1) (h1 : t 1 ≤ fltMax) :
    (∀ (t' : ℕ → ℚ) (ntimes : ℕ), (∀ k, t (k + 1) = t' (k + 1)) →
        avgtimeOf ntimes t = avgtimeOf ntimes t' ∧
        mintimeOf ntimes t = mintimeOf ntimes t' ∧
        maxtimeOf ntimes t = maxtimeOf ntimes t') ∧
    (avgtimeOf 2 t = t 1 ∧ mintimeOf 2 t = t 1 ∧ maxtimeOf 2 t = t 1) := by
  constructor
  · intro t' ntimes h
    refine ⟨?_, ?_, ?_⟩
    · unfold avgtimeOf
      rw [foldl_add_agree t t' h]
    · unfold mintimeOf
      rw [foldl_min_agree t t' h]
    · unfold maxtimeOf
      rw [foldl_max_agree t t' h]
  · refine ⟨?_, ?_, ?_⟩
    · show (([0] : List ℕ).foldl (fun acc k => acc + t (k + 1)) 0) / ((1 : ℕ) : ℚ) = t 1
      norm_num
    · show ([0] : List ℕ).foldl (fun acc k => min acc (t (k + 1))) fltMax = t 1
      simp [min_eq_right h1]
    · show ([0] : List ℕ).foldl (fun acc k => max acc (t (k + 1))) 0 = t 1
      simp [max_eq_right h0]

/-- Witness for C4 at the constant time table `t = 1`. -/
theorem stats_discard_warmup_trial_witness :
    (0 ≤ (1 : ℚ)) ∧ ((1 : ℚ) ≤ fltMax) ∧
    (avgtimeOf 2 (fun _ => 1) = 1 ∧ mintimeOf 2 (fun _ => 1) = 1 ∧
      maxtimeOf 2 (fun _ => 1) = 1) :=
  ⟨by norm_num, by norm_num [fltMax],
    (stats_discard_warmup_trial (fun _ => 1) (by norm_num) (by norm_num [fltMax])).2⟩

/-- C8: for every kernel time table and every run with `ntimes ≥ 2`, the
summarised statistics satisfy `mintime ≤ avgtime ≤ maxtime`, the average
being the arithmetic mean over trials `1, ..., ntimes-1`. -/
theorem summary_min_le_avg_le_max (ntimes : ℕ) (t : ℕ → ℚ) (h : 2 ≤ ntimes) :
    mintimeOf ntimes t ≤ avgtimeOf ntimes t ∧ avgtimeOf ntimes t ≤ maxtimeOf ntimes t := by
  have hlen1 : 1 ≤ ntimes - 1 := by omega
  have hpos : (0 : ℚ) < ((ntimes - 1 : ℕ) : ℚ) := by exact_mod_cast hlen1
  have hlen : ((List.range (ntimes - 1)).length : ℚ) = ((ntimes - 1 : ℕ) : ℚ) := by
    rw [List.length_range]
  constructor
  · unfold avgtimeOf
    rw [le_div_iff₀ hpos]
    have hmem := (min_fold_bounds t (List.range (ntimes - 1)) fltMax).2
    have hsum := sum_fold_lower t (mintimeOf ntimes t) (List.range (ntimes - 1)) 0
      (fun k hk => hmem k hk)
    rw [hlen] at hsum
    linarith [hsum]
  · unfold avgtimeOf
    rw [div_le_iff₀ hpos]
    have hmem := (max_fold_bounds t (List.range (ntimes - 1)) 0).2
    have hsum := sum_fold_upper t (maxtimeOf ntimes t) (List.range (ntimes - 1)) 0
      (fun k hk => hmem k hk)
    rw [hlen] at hsum
    linarith [hsum]

/-- Witness for C8 at `ntimes = 2` and the constant time table `t = 1`. -/
theorem summary_min_le_avg_le_max_witness :
    2 ≤ 2 ∧
    (mintimeOf 2 (fun _ => 1) ≤ avgtimeOf 2 (fun _ => 1) ∧
      avgtimeOf 2 (fun _ => 1) ≤ maxtimeOf 2 (fun _ => 1)) :=
  ⟨by norm_num, summary_min_le_avg_le_max 2 (fun _ => 1) (by norm_num)⟩

/-- C3: the claim fails on the code in the configuration `ENABLE_SCATTER`
without `ENABLE_GATHER`.  There (model: `n = m = 1`, 2 trials) the
validator's expected scalar for buffer `E` is `ej = 0.0` (the gather-less
branch of stream.c line 669), while the scatter kernel stores `D`'s
initial value `1.0` into every checked element `E[Idx[j]]`, so the
expected scalar differs from the observed value and a correct run fails
validation.  (With gather also enabled the code agrees with the claim.) -/
theorem scatter_only_expected_vs_observed :
    (validatorRun false true 2).ej = 0 ∧
    (runStream 1 1 false true false 2).e ((runStream 1 1 false true false 2).idx 0) = 1 ∧
    (1 : ℚ) ≠ 0 := by
  refine ⟨by decide, by decide, by norm_num⟩

/-- C5: the claim fails on the code when `STREAM_INDEX_ARRAY_SIZE` differs
from `STREAM_ARRAY_SIZE`: stream.c line 700 divides `eSumErr` (a sum of
`m` terms) by `STREAM_ARRAY_SIZE = n`, not by the number `m` of checked
elements.  At the concrete input `n = 2`, `m = 1`, gather and scatter
enabled, two trials (expected `ej = 450`), and an observed buffer `E`
whose checked element deviates by `675e-13`: the code's check does not
flag buffer `E`, although the spec's mean absolute difference over the
checked elements, divided by `ej`, exceeds `epsilon = 1e-13`. -/
theorem e_avg_err_wrong_divisor :
    (validatorRun true true 2).ej = 450 ∧
    ¬ eCheckFails 2 1 (fun _ => 450 + 675 / 10 ^ 13) (fun _ => 0) 450 ∧
    eMeanAbsErrSpec 1 (fun _ => 450 + 675 / 10 ^ 13) (fun _ => 0) 450 / 450 > epsilon64 := by
  have hsum : eSumErrOf 1 (fun _ => 450 + 675 / 10 ^ 13) (fun _ => 0) 450
      = 675 / 10 ^ 13 := by
    show (0 : ℚ) + |450 + 675 / 10 ^ 13 - 450| = 675 / 10 ^ 13
    rw [abs_of_nonneg (by norm_num)]
    norm_num
  refine ⟨?_, ?_, ?_⟩
  · have h : validatorRun true true 2
        = validatorTrial true true 3 (validatorTrial true true 3 validatorInit) := rfl
    rw [h]
    norm_num [validatorTrial, validatorInit]
  · unfold eCheckFails eAvgErrOf
    rw [hsum, abs_of_nonneg (by norm_num)]
    norm_num [epsilon64]
  · unfold eMeanAbsErrSpec
    rw [hsum]
    norm_num [epsilon64]
